import Mathlib

/-!
Verification of the carbondata collection pipeline.

Shallow embedding, translated from the TypeScript sources:
- apps/mcp/src/scheduler/task-scheduler.ts  (TaskScheduler)
- apps/mcp/src/utils/quality-checker.ts     (QualityChecker, concatenated into prisma/seed.ts)
- apps/mcp/src/adapters/carb-csv.ts         (CarbCSVAdapter, src/unnamed/part_002)
- apps/mcp/src/adapters/cea-cneeex.ts       (CEAAdapter)
- apps/mcp/src/utils/data-quality.ts        (checkDuplicates, src/unnamed/part_001)

Modelling conventions:
- JS number prices are modelled as Rat; integer counters as Nat/Int.
- JS falsiness of a string field is equality with "", of a number field equality with 0,
  of an optional object/number absence of the value.
- new Date(s).getTime() is modelled by jsGetTime, returning none for NaN (invalid dates)
  and an order-isomorphic integer encoding of the calendar day otherwise.
- Array.prototype.sort with the numeric comparator (a, b) => a - b is modelled as a
  stable insertion sort; a NaN comparator result is treated like 0 (the V8 behaviour).
- async functions with no genuine concurrency are modelled as pure functions; I/O
  outcomes (fetch results, submission outcomes) are passed in explicitly (RunEnv).
-/

/-- One observed price point (interface PriceRecord, apps/mcp/src/types/price-record.ts).
Optional string fields (sourceUrl, collectedBy) are modelled as String with "" for absent,
matching their only uses, which are JS-falsy checks and interpolation. The metadata bag
is modelled by its list of keys, which is all the code ever inspects. -/
structure PriceRecord where
  date : String
  marketCode : String
  instrumentCode : String
  price : Rat
  currency : String
  volume : Option Rat
  sourceUrl : String
  collectedBy : String
  metadata : Option (List String)
  deriving DecidableEq

/-- Decimal value of a list of digit characters, as parseInt does on an all-digit string. -/
def digitsVal (cs : List Char) : Nat :=
  cs.foldl (fun acc c => 10 * acc + (c.toNat - '0'.toNat)) 0

/-- Days in a month of the proleptic Gregorian calendar, leap years included. -/
def daysInMonth (y m : Nat) : Nat :=
  if m = 2 then (if y % 4 = 0 ∧ (y % 100 ≠ 0 ∨ y % 400 = 0) then 29 else 28)
  else if m = 4 ∨ m = 6 ∨ m = 9 ∨ m = 11 then 30 else 31

/-- Splits a character list of the exact shape digits-separator-digits-separator-digits
(separators '/' or '-', all three digit runs nonempty, nothing left over) into its three
digit runs. This is the common skeleton of the date regexes in the adapters. -/
def splitDateRuns (cs : List Char) : Option (List Char × List Char × List Char) :=
  let p1 := cs.span Char.isDigit
  match p1.2 with
  | [] => none
  | c1 :: rest1 =>
    if c1 = '/' ∨ c1 = '-' then
      let p2 := rest1.span Char.isDigit
      match p2.2 with
      | [] => none
      | c2 :: rest2 =>
        if c2 = '/' ∨ c2 = '-' then
          let p3 := rest2.span Char.isDigit
          if p1.1 ≠ [] ∧ p2.1 ≠ [] ∧ p3.1 ≠ [] ∧ p3.2 = [] then some (p1.1, p2.1, p3.1)
          else none
        else none
    else none

/-- Models new Date(s).getTime(): none stands for NaN (an invalid date). Only the
dash/slash-separated year-month-day shapes that this pipeline produces are parsed;
the returned integer encodes the calendar day order-isomorphically to the real epoch
timestamp (only order and equality of the encodings are ever used). Engine-specific
rollover of out-of-range days is not modelled: such dates map to none. -/
def jsGetTime (s : String) : Option Int :=
  match splitDateRuns s.toList with
  | some (ys, ms, ds) =>
    if ys.length = 4 ∧ 1 ≤ ms.length ∧ ms.length ≤ 2 ∧ 1 ≤ ds.length ∧ ds.length ≤ 2 then
      let y := digitsVal ys
      let m := digitsVal ms
      let d := digitsVal ds
      if 1 ≤ m ∧ m ≤ 12 ∧ 1 ≤ d ∧ d ≤ daysInMonth y m then
        some ((y : Int) * 10000 + (m : Int) * 100 + (d : Int))
      else none
    else none
  | none => none

/-- Comparator outcome used by the JS sorts below: true when the element carrying time a
stays before an inserted element of time b. A NaN operand (none) makes the comparator
a - b return NaN, which V8 treats like 0, so the pair keeps its relative order. -/
def jsLeTime (a b : Option Int) : Bool :=
  match a, b with
  | none, _ => true
  | _, none => true
  | some x, some y => decide (x ≤ y)

/-- Stable insertion of a timestamp into an already sorted list of timestamps. -/
def insertTime (x : Option Int) : List (Option Int) → List (Option Int)
  | [] => [x]
  | y :: l => if jsLeTime y x then y :: insertTime x l else x :: y :: l

/-- Models [...dates].sort((a, b) => a - b) from QualityChecker.calculateScore. -/
def jsSortTimes (l : List (Option Int)) : List (Option Int) :=
  l.foldr insertTime []

/-- Per-record deduction entries pushed by the loop in QualityChecker.calculateScore:
10 for a missing required field (date, price or marketCode falsy), 15 for a
non-positive price. -/
def perRecordDeductions (r : PriceRecord) : List Int :=
  (if r.date = "" ∨ r.price = 0 ∨ r.marketCode = "" then [10] else []) ++
  (if r.price ≤ 0 then [15] else [])

/-- Deduction entry (20) for mixed market codes within one batch: the Set of market
codes has size greater than one. -/
def mixedMarketDeduction (records : List PriceRecord) : List Int :=
  if 1 < (records.map (fun r => r.marketCode)).dedup.length then [20] else []

/-- Deduction entry (5) when the record dates are not already in chronological order,
detected by comparing the date list with its sorted copy. -/
def dateOrderDeduction (records : List PriceRecord) : List Int :=
  if records.map (fun r => jsGetTime r.date) ≠
      jsSortTimes (records.map (fun r => jsGetTime r.date)) then [5] else []

/-- All deduction entries collected by QualityChecker.calculateScore, in push order. -/
def scoreDeductions (records : List PriceRecord) : List Int :=
  records.flatMap perRecordDeductions ++ mixedMarketDeduction records ++ dateOrderDeduction records

/-- QualityChecker.calculateScore (quality-checker.ts): returns 0 for an empty batch;
otherwise sums the deductions, caps the total at 100, and subtracts from 100 with a
floor of 0. -/
def calculateScore (records : List PriceRecord) : Int :=
  if records = [] then 0
  else
    let totalDeduction := min (scoreDeductions records).sum 100
    max 0 (100 - totalDeduction)

/-- A record that is defective in the sense of claim C6: a missing required field
(date, price or marketCode absent, i.e. JS-falsy) or a non-positive price. -/
def defectiveRecord (r : PriceRecord) : Prop :=
  (r.date = "" ∨ r.price = 0 ∨ r.marketCode = "") ∨ r.price ≤ 0

instance (r : PriceRecord) : Decidable (defectiveRecord r) := by
  unfold defectiveRecord; infer_instance

/-- A well-formed CCA record used in concrete computations. -/
def ccaSampleRecord : PriceRecord :=
  { date := "2024-01-15", marketCode := "CCA", instrumentCode := "CCA", price := 50,
    currency := "USD", volume := some 100, sourceUrl := "https://ww2.arb.ca.gov",
    collectedBy := "MCP:CARB CSV", metadata := some ["source"] }

/-- A record with a non-positive price (and all required fields present). -/
def negativePriceRecord : PriceRecord :=
  { date := "2024-01-16", marketCode := "CCA", instrumentCode := "CCA", price := -1,
    currency := "USD", volume := none, sourceUrl := "", collectedBy := "",
    metadata := none }

/-- A record with a missing (falsy) price. -/
def missingPriceRecord : PriceRecord :=
  { date := "2024-01-17", marketCode := "CCA", instrumentCode := "CCA", price := 0,
    currency := "USD", volume := none, sourceUrl := "", collectedBy := "",
    metadata := none }

/-- C10: calculateScore on the empty batch returns 0, not 100, although the empty batch
incurs no deductions; consequently there is an input (the empty batch) where appending a
defective record strictly increases the score: the batch holding one record with price
-1 scores 85. -/
theorem empty_score_c10 :
    calculateScore [] = 0 ∧
    calculateScore [negativePriceRecord] = 85 ∧
    calculateScore [] < calculateScore [negativePriceRecord] := by
  refine ⟨by decide, by decide, by decide⟩

/-- C6 counterexample: the claim asserts the score is monotonically non-increasing as
records with missing fields or non-positive prices are appended, for every batch; but
appending a missing-price record to the empty batch moves the score from 0 up to 75. -/
theorem score_monotone_c6_counterexample :
    defectiveRecord missingPriceRecord ∧
    calculateScore [] = 0 ∧
    calculateScore ([] ++ [missingPriceRecord]) = 75 ∧
    ¬ calculateScore ([] ++ [missingPriceRecord]) ≤ calculateScore [] := by
  refine ⟨by decide, by decide, by decide, by decide⟩

/-- Every entry of perRecordDeductions is the 10-point or the 15-point penalty. -/
lemma perRecordDeductions_mem (r : PriceRecord) (x : Int) (hx : x ∈ perRecordDeductions r) :
    x = 10 ∨ x = 15 := by
  unfold perRecordDeductions at hx
  rcases List.mem_append.1 hx with h | h <;> split_ifs at h <;> simp_all

/-- A defective record contributes at least 10 deduction points. -/
lemma perRecordDeductions_sum_ge (r : PriceRecord) (hr : defectiveRecord r) :
    10 ≤ (perRecordDeductions r).sum := by
  unfold defectiveRecord at hr
  unfold perRecordDeductions
  by_cases hA : r.date = "" ∨ r.price = 0 ∨ r.marketCode = ""
  · by_cases hB : r.price ≤ 0 <;> simp [hA, hB]
  · have hB : r.price ≤ 0 := by tauto
    simp [hA, hB]

/-- Appending an element cannot shrink the number of distinct strings in a list. -/
lemma dedup_length_le_append (l : List String) (x : String) :
    l.dedup.length ≤ (l ++ [x]).dedup.length := by
  rw [← List.card_toFinset, ← List.card_toFinset]
  apply Finset.card_le_card
  intro a ha
  rw [List.mem_toFinset] at *
  exact List.mem_append_left _ ha

/-- The mixed-market-code deduction can only appear, never disappear, under append. -/
lemma mixedMarketDeduction_sum_le (records : List PriceRecord) (r : PriceRecord) :
    (mixedMarketDeduction records).sum ≤ (mixedMarketDeduction (records ++ [r])).sum := by
  unfold mixedMarketDeduction
  have hle := dedup_length_le_append (records.map (fun x => x.marketCode)) r.marketCode
  rw [List.map_append] at *
  split_ifs with ha hb <;> simp_all <;> omega

/-- The date-order deduction is between 0 and 5. -/
lemma dateOrderDeduction_sum_bounds (records : List PriceRecord) :
    0 ≤ (dateOrderDeduction records).sum ∧ (dateOrderDeduction records).sum ≤ 5 := by
  unfold dateOrderDeduction
  split_ifs <;> simp

/-- Every deduction entry is non-negative. -/
lemma scoreDeductions_sum_nonneg (records : List PriceRecord) :
    0 ≤ (scoreDeductions records).sum := by
  apply List.sum_nonneg
  intro x hx
  unfold scoreDeductions at hx
  rcases List.mem_append.1 hx with h | h
  · rcases List.mem_append.1 h with h | h
    · obtain ⟨r, _, hr⟩ := List.mem_flatMap.1 h
      rcases perRecordDeductions_mem r x hr with h | h <;> omega
    · unfold mixedMarketDeduction at h
      split_ifs at h <;> simp_all
  · unfold dateOrderDeduction at h
    split_ifs at h <;> simp_all

/-- Appending a defective record never lowers the capped deduction total. -/
lemma scoreDeductions_sum_le (records : List PriceRecord) (r : PriceRecord)
    (hr : defectiveRecord r) :
    (scoreDeductions records).sum ≤ (scoreDeductions (records ++ [r])).sum := by
  unfold scoreDeductions
  simp only [List.flatMap_append, List.sum_append, List.flatMap_cons, List.flatMap_nil,
    List.append_nil]
  have h1 := perRecordDeductions_sum_ge r hr
  have h2 := mixedMarketDeduction_sum_le records r
  have h3 := (dateOrderDeduction_sum_bounds records).2
  have h4 := (dateOrderDeduction_sum_bounds (records ++ [r])).1
  linarith

/-- C6 (amended): calculateScore always lies in [0, 100], and for every NON-EMPTY batch
the score is monotonically non-increasing as records with missing required fields (date,
price, or marketCode absent) or non-positive prices are appended. (The empty batch is
excluded: it scores 0, so appending a defective record to it increases the score.) -/
theorem score_monotone_c6 :
    (∀ records : List PriceRecord,
      0 ≤ calculateScore records ∧ calculateScore records ≤ 100) ∧
    (∀ (records : List PriceRecord) (r : PriceRecord), records ≠ [] → defectiveRecord r →
      calculateScore (records ++ [r]) ≤ calculateScore records) := by
  constructor
  · intro records
    unfold calculateScore
    split_ifs with h
    · norm_num
    · have h0 := scoreDeductions_sum_nonneg records
      constructor
      · exact le_max_left 0 _
      · apply max_le (by norm_num)
        have : (0:Int) ≤ min (scoreDeductions records).sum 100 :=
          le_min h0 (by norm_num)
        linarith
  · intro records r hne hr
    unfold calculateScore
    rw [if_neg hne, if_neg (by simp)]
    have hsum := scoreDeductions_sum_le records r hr
    have hmin : min (scoreDeductions records).sum 100 ≤
        min (scoreDeductions (records ++ [r])).sum 100 := min_le_min hsum le_rfl
    have : (100:Int) - min (scoreDeductions (records ++ [r])).sum 100 ≤
        100 - min (scoreDeductions records).sum 100 := by linarith
    exact max_le_max le_rfl this

/-- Witness for score_monotone_c6 at a concrete non-empty batch and defective record. -/
theorem score_monotone_c6_witness :
    ([ccaSampleRecord] : List PriceRecord) ≠ [] ∧ defectiveRecord negativePriceRecord ∧
    calculateScore ([ccaSampleRecord] ++ [negativePriceRecord]) ≤
      calculateScore [ccaSampleRecord] :=
  ⟨by decide, by decide,
    score_monotone_c6.2 [ccaSampleRecord] negativePriceRecord (by decide) (by decide)⟩

/-- Expected price range passed to checkQuality (options.expectedPriceRange). -/
structure PriceRange where
  min : Rat
  max : Rat
  deriving DecidableEq

/-- Interface QualityCheckOptions from apps/mcp/src/types/price-record.ts. -/
structure QualityCheckOptions where
  expectedPriceRange : PriceRange
  maxPriceChangePercent : Rat
  requiredFields : List String
  deriving DecidableEq

/-- One warning pushed by QualityChecker.checkQuality. The source pushes interpolated
strings; each constructor carries exactly the data interpolated into the corresponding
message (for largePriceChange the printed percentage is determined by the two prices). -/
inductive QWarning where
  | priceOutOfRange (price mn mx : Rat)
  | missingField (field : String)
  | largePriceChange (prevPrice currPrice : Rat) (prevDate currDate : String)
  deriving DecidableEq

/-- Interface QualityCheckResult, with warnings kept structured (see QWarning). -/
structure QualityCheckResult where
  warnings : List QWarning
  passed : Bool
  score : Rat
  deriving DecidableEq

/-- JS truthiness of the dynamic field access record[field] in checkQuality, per field of
the PriceRecord interface; an unknown field name reads undefined, which is falsy. -/
def fieldPresent (r : PriceRecord) (f : String) : Bool :=
  match f with
  | "date" => r.date != ""
  | "marketCode" => r.marketCode != ""
  | "instrumentCode" => r.instrumentCode != ""
  | "currency" => r.currency != ""
  | "sourceUrl" => r.sourceUrl != ""
  | "collectedBy" => r.collectedBy != ""
  | "price" => r.price != 0
  | "volume" => !(r.volume == none || r.volume == some 0)
  | "metadata" => r.metadata != none
  | _ => false

/-- Warnings pushed for one record by the first loop of checkQuality: the price-range
warning when the price is strictly outside [min, max], then one missing-field warning
per absent required field. -/
def recordQWarnings (options : QualityCheckOptions) (r : PriceRecord) : List QWarning :=
  (if r.price < options.expectedPriceRange.min ∨ r.price > options.expectedPriceRange.max
   then [QWarning.priceOutOfRange r.price options.expectedPriceRange.min
          options.expectedPriceRange.max]
   else []) ++
  options.requiredFields.filterMap (fun f =>
    if fieldPresent r f then none else some (QWarning.missingField f))

/-- Stable insertion used to model [...records].sort by date (see jsLeTime). -/
def insertRecordByTime (x : PriceRecord) : List PriceRecord → List PriceRecord
  | [] => [x]
  | y :: l =>
    if jsLeTime (jsGetTime y.date) (jsGetTime x.date) then y :: insertRecordByTime x l
    else x :: y :: l

/-- Models [...records].sort((a, b) => new Date(a.date) - new Date(b.date)). -/
def jsSortRecordsByTime (l : List PriceRecord) : List PriceRecord :=
  l.foldr insertRecordByTime []

/-- Whether the consecutive-record change percentage Math.abs((curr-prev)/prev*100)
exceeds the threshold. A zero prev price gives Infinity in JS (exceeds any threshold)
unless curr is also zero, in which case it gives NaN (never exceeds). -/
def jsChangeExceeds (prev curr maxPct : Rat) : Bool :=
  if prev = 0 then (if curr = 0 then false else true)
  else decide (|(curr - prev) / prev * 100| > maxPct)

/-- Warnings pushed by the consecutive-price-change loop of checkQuality over the
date-sorted record list. -/
def pairChangeWarnings (maxPct : Rat) (sorted : List PriceRecord) : List QWarning :=
  (sorted.zip sorted.tail).filterMap (fun p =>
    if jsChangeExceeds p.1.price p.2.price maxPct
    then some (QWarning.largePriceChange p.1.price p.2.price p.1.date p.2.date)
    else none)

/-- QualityChecker.calculateQualityScore: 100 minus 5 per warning, plus completeness
bonuses (up to 10 for volume presence, up to 5 for non-empty metadata), clamped to
[0, 100]. On an empty batch the JS fractions are NaN (0/0); Lean division by zero gives
0 instead — no claim evaluates this case. -/
def calculateQualityScore (records : List PriceRecord) (warningCount : Nat) : Rat :=
  max 0 (min 100
    (100 - (warningCount : Rat) * 5 +
      ((records.filter (fun r => r.volume != none)).length : Rat) / (records.length : Rat) * 10 +
      ((records.filter (fun r =>
          match r.metadata with
          | some ks => decide (0 < ks.length)
          | none => false)).length : Rat) / (records.length : Rat) * 5))

/-- The full warning list produced by QualityChecker.checkQuality, in push order. -/
def checkQualityWarnings (records : List PriceRecord) (options : QualityCheckOptions) :
    List QWarning :=
  records.flatMap (recordQWarnings options) ++
    pairChangeWarnings options.maxPriceChangePercent (jsSortRecordsByTime records)

/-- QualityChecker.checkQuality (quality-checker.ts): collects warnings, computes the
passed flag (no missing required field anywhere and fewer than 5 warnings) and the
completeness-bonus score. -/
def checkQuality (records : List PriceRecord) (options : QualityCheckOptions) :
    QualityCheckResult :=
  { warnings := checkQualityWarnings records options,
    passed := records.all (fun r => options.requiredFields.all (fieldPresent r)) &&
      decide ((checkQualityWarnings records options).length < 5),
    score := calculateQualityScore records (checkQualityWarnings records options).length }

/-- C5: checkQuality emits the price-range warning for a record of the batch if and only
if its price is strictly below the expected minimum or strictly above the expected
maximum; a price equal to either boundary produces no price-range warning. -/
theorem price_range_warning_c5 (records : List PriceRecord) (options : QualityCheckOptions)
    (r : PriceRecord) (hr : r ∈ records) :
    QWarning.priceOutOfRange r.price options.expectedPriceRange.min
        options.expectedPriceRange.max ∈ (checkQuality records options).warnings ↔
      (r.price < options.expectedPriceRange.min ∨
        r.price > options.expectedPriceRange.max) := by
  show _ ∈ checkQualityWarnings records options ↔ _
  unfold checkQualityWarnings
  rw [List.mem_append]
  constructor
  · rintro (h | h)
    · obtain ⟨r', hr', hw⟩ := List.mem_flatMap.1 h
      unfold recordQWarnings at hw
      rcases List.mem_append.1 hw with hw | hw
      · split_ifs at hw with hc
        · rw [List.mem_singleton] at hw
          rw [QWarning.priceOutOfRange.injEq] at hw
          rw [hw.1]
          exact hc
        · simp at hw
      · obtain ⟨f, _, hf⟩ := List.mem_filterMap.1 hw
        split_ifs at hf <;> simp_all
    · exfalso
      unfold pairChangeWarnings at h
      obtain ⟨p, _, hp⟩ := List.mem_filterMap.1 h
      split_ifs at hp <;> simp_all
  · intro hc
    left
    refine List.mem_flatMap.2 ⟨r, hr, ?_⟩
    unfold recordQWarnings
    refine List.mem_append.2 (Or.inl ?_)
    rw [if_pos hc]
    exact List.mem_singleton.2 rfl

/-- A CCA record priced above the expected range. -/
def outOfRangeRecord : PriceRecord :=
  { ccaSampleRecord with price := 200 }

/-- The options CarbCSVAdapter.validateData passes to checkQuality. -/
def carbQualityOptions : QualityCheckOptions :=
  { expectedPriceRange := { min := 5, max := 100 }, maxPriceChangePercent := 20,
    requiredFields := ["date", "price", "marketCode", "instrumentCode"] }

/-- Witness for price_range_warning_c5 at a concrete record and option set. -/
theorem price_range_warning_c5_witness :
    outOfRangeRecord ∈ [outOfRangeRecord] ∧
    (QWarning.priceOutOfRange outOfRangeRecord.price
        carbQualityOptions.expectedPriceRange.min
        carbQualityOptions.expectedPriceRange.max ∈
          (checkQuality [outOfRangeRecord] carbQualityOptions).warnings ↔
      (outOfRangeRecord.price < carbQualityOptions.expectedPriceRange.min ∨
        outOfRangeRecord.price > carbQualityOptions.expectedPriceRange.max)) :=
  ⟨by decide,
    price_range_warning_c5 [outOfRangeRecord] carbQualityOptions outOfRangeRecord (by decide)⟩

/-- Decimal digit characters of n, most significant first. The first argument is fuel
(structural recursion; n + 1 is always enough since n / 10 < n for n at least 10). -/
def decDigitsAux : Nat → Nat → List Char
  | 0, _ => []
  | fuel + 1, n =>
    if n < 10 then [Nat.digitChar n]
    else decDigitsAux fuel (n / 10) ++ [Nat.digitChar (n % 10)]

/-- Decimal digit characters of a natural number, most significant first. -/
def decDigits (n : Nat) : List Char :=
  decDigitsAux (n + 1) n

/-- Decimal string of a natural number. -/
def natDecString (n : Nat) : String :=
  String.mk (decDigits n)

/-- Decimal string of an integer. -/
def intDecString (i : Int) : String :=
  if i < 0 then "-" ++ natDecString i.natAbs else natDecString i.natAbs

/-- Models JS number-to-string in template interpolation. Integer values print as
decimal integers — the only case the claims exercise; for non-integer values the
engine's decimal rendering is stood in for by numerator/denominator form. -/
def jsNumToString (q : Rat) : String :=
  if q.den = 1 then intDecString q.num
  else intDecString q.num ++ "/" ++ natDecString q.den

/-- The interpolated warning strings of QualityChecker.checkQuality, rebuilt from the
structured QWarning data (toFixed(1) of the change percentage is approximated by the
exact rational rendering; no claim inspects these strings). -/
def renderQWarning : QWarning → String
  | QWarning.priceOutOfRange p mn mx =>
    "Price " ++ jsNumToString p ++ " outside expected range (" ++
      jsNumToString mn ++ "-" ++ jsNumToString mx ++ ")"
  | QWarning.missingField f => "Missing required field: " ++ f
  | QWarning.largePriceChange prev curr d1 d2 =>
    "Large price change " ++
      (if prev = 0 then "Infinity" else jsNumToString (|(curr - prev) / prev * 100|)) ++
      "% between " ++ d1 ++ " and " ++ d2

/-- Observed price and date ranges reported by validateData. A none stands for the
JS positive or negative Infinity of Math.min and Math.max over an empty spread, or NaN when an invalid
date participates. No claim inspects this metadata. -/
structure BatchMetadata where
  priceMin : Option Rat
  priceMax : Option Rat
  dateStart : Option Int
  dateEnd : Option Int
  deriving DecidableEq

/-- Minimum of a rational list, none when empty (models Math.min of an empty spread). -/
def jsMinRatList (l : List Rat) : Option Rat :=
  l.foldl (fun acc x =>
    match acc with
    | none => some x
    | some a => some (min a x)) none

/-- Maximum of a rational list, none when empty (models Math.max of an empty spread). -/
def jsMaxRatList (l : List Rat) : Option Rat :=
  l.foldl (fun acc x =>
    match acc with
    | none => some x
    | some a => some (max a x)) none

/-- Minimum over possibly-NaN timestamps: NaN (none) poisons the result, as Math.min
does; an empty list gives none as well. -/
def jsMinTimeList (l : List (Option Int)) : Option Int :=
  if l.contains none then none
  else (l.filterMap id).foldl (fun acc x =>
    match acc with
    | none => some x
    | some a => some (min a x)) none

/-- Maximum over possibly-NaN timestamps, mirroring jsMinTimeList. -/
def jsMaxTimeList (l : List (Option Int)) : Option Int :=
  if l.contains none then none
  else (l.filterMap id).foldl (fun acc x =>
    match acc with
    | none => some x
    | some a => some (max a x)) none

/-- Interface ValidationResult from apps/mcp/src/types/price-record.ts. -/
structure ValidationResult where
  isValid : Bool
  errors : List String
  warnings : List String
  qualityScore : Int
  recordCount : Nat
  metadata : Option BatchMetadata
  deriving DecidableEq

/-- The hard errors pushed per record by the loop of CarbCSVAdapter.validateData: wrong
market code, wrong currency, unparseable date — in that push order. -/
def carbRecordErrors (records : List PriceRecord) : List String :=
  records.flatMap (fun r =>
    (if r.marketCode ≠ "CCA" then ["Invalid market code: " ++ r.marketCode] else []) ++
    (if r.currency ≠ "USD" then ["Invalid currency: " ++ r.currency] else []) ++
    (if jsGetTime r.date = none then ["Invalid date: " ++ r.date] else []))

/-- The per-record price-range warnings of CarbCSVAdapter.validateData. -/
def carbRecordWarnings (records : List PriceRecord) : List String :=
  records.flatMap (fun r =>
    if r.price < 5 ∨ 100 < r.price then
      ["Price $" ++ jsNumToString r.price ++ " outside typical CARB range ($5-100)"]
    else [])

/-- CarbCSVAdapter.validateData (carb-csv.ts): per-record hard errors and warnings,
the shared quality check with the CARB options, calculateScore as the quality score,
and the observed price/date ranges as metadata; isValid holds iff no hard error. -/
def validateData (records : List PriceRecord) : ValidationResult :=
  { isValid := (carbRecordErrors records).isEmpty,
    errors := carbRecordErrors records,
    warnings := carbRecordWarnings records ++
      (checkQuality records carbQualityOptions).warnings.map renderQWarning,
    qualityScore := calculateScore records,
    recordCount := records.length,
    metadata := some
      { priceMin := jsMinRatList (records.map (fun r => r.price)),
        priceMax := jsMaxRatList (records.map (fun r => r.price)),
        dateStart := jsMinTimeList (records.map (fun r => jsGetTime r.date)),
        dateEnd := jsMaxTimeList (records.map (fun r => jsGetTime r.date)) } }

/-- Interface ScheduledTask (task-scheduler.ts). The adapter object itself is not part
of the state; its behaviour enters executeTask through RunEnv below. Timestamps are
integers (epoch milliseconds). -/
structure ScheduledTask where
  id : String
  schedule : String
  lastRun : Option Int
  nextRun : Option Int
  enabled : Bool
  retryCount : Nat
  maxRetries : Nat
  deriving DecidableEq

/-- Interface TaskExecutionResult (task-scheduler.ts). The wall-clock executionTime is
modelled as 0. -/
structure TaskExecutionResult where
  taskId : String
  success : Bool
  recordCount : Nat
  errors : List String
  warnings : List String
  executionTime : Int
  timestamp : Int
  deriving DecidableEq

/-- The mutable fields of class TaskScheduler: the task map (as an association list
with unique keys, looked up with List.lookup) and the execution history. -/
structure SchedulerState where
  tasks : List (String × ScheduledTask)
  executionHistory : List TaskExecutionResult
  isRunning : Bool
  deriving DecidableEq

/-- The I/O environment one executeTask call runs against: either collectData throws
(network or adapter failure), or it returns data whose validation result is given, in
which case submitDataToAPI, if reached, fails with the given error or succeeds. -/
inductive RunEnv where
  | collectThrows (msg : String)
  | collected (data : List PriceRecord) (validation : ValidationResult)
      (submitError : Option String)
  deriving DecidableEq

/-- Observable side effects of one executeTask call: the alert sent on retry
exhaustion (sendAlert arguments), the delay of the self-retry setTimeout when one is
scheduled, and whether submitDataToAPI was invoked. -/
structure Effects where
  alert : Option (String × String)
  retryDelayMs : Option Int
  submitCalled : Bool
  deriving DecidableEq

/-- The no-effect value. -/
def noEffects : Effects :=
  { alert := none, retryDelayMs := none, submitCalled := false }

/-- Outcome of the try block of executeTask: normal completion or a caught error, in
both cases with the error/warning lists accumulated in the result object so far and
whether submitDataToAPI was invoked. -/
inductive TryOut where
  | ok (recordCount : Nat) (errors warnings : List String) (submitCalled : Bool)
  | caught (msg : String) (errors warnings : List String) (submitCalled : Bool)
  deriving DecidableEq

/-- The try block of executeTask: collect, validate (pushing errors and warnings and
throwing when any hard error exists), submit when data is nonempty, and on success push
the validation warnings (again, when already pushed by the invalid branch) and set
recordCount. -/
def runTry (env : RunEnv) : TryOut :=
  match env with
  | RunEnv.collectThrows msg => TryOut.caught msg [] [] false
  | RunEnv.collected data validation submitError =>
    let errs0 := if !validation.isValid then validation.errors else []
    let warns0 := if !validation.isValid then validation.warnings else []
    if !validation.isValid && !validation.errors.isEmpty then
      TryOut.caught ("Data validation failed: " ++ String.intercalate ", " validation.errors)
        errs0 warns0 false
    else if !data.isEmpty then
      match submitError with
      | some e => TryOut.caught e errs0 warns0 true
      | none => TryOut.ok data.length errs0 (warns0 ++ validation.warnings) true
    else TryOut.ok 0 errs0 (warns0 ++ validation.warnings) false

/-- The success path and the catch block of executeTask: on success reset retryCount
and set lastRun; on a caught error increment retryCount, then either schedule a
self-retry after retryCount * 5 minutes (still under maxRetries) or send the alert. -/
def applyOutcome (taskId : String) (now : Int) (task : ScheduledTask) :
    TryOut → ScheduledTask × TaskExecutionResult × Effects
  | TryOut.ok rc errs warns sub =>
    ({ task with retryCount := 0, lastRun := some now },
     { taskId := taskId, success := true, recordCount := rc, errors := errs,
       warnings := warns, executionTime := 0, timestamp := now },
     { alert := none, retryDelayMs := none, submitCalled := sub })
  | TryOut.caught msg errs warns sub =>
    ({ task with retryCount := task.retryCount + 1 },
     { taskId := taskId, success := false, recordCount := 0, errors := errs ++ [msg],
       warnings := warns, executionTime := 0, timestamp := now },
     if task.retryCount + 1 < task.maxRetries then
       { alert := none,
         retryDelayMs := some (((task.retryCount + 1 : Nat) : Int) * 5 * 60 * 1000),
         submitCalled := sub }
     else
       { alert := some (taskId, msg), retryDelayMs := none, submitCalled := sub })

/-- Replacement of the value stored under a key, as Map.prototype.set does on a key
that is present (executeTask only ever writes back the task it looked up). -/
def updateAssoc : List (String × ScheduledTask) → String → ScheduledTask →
    List (String × ScheduledTask)
  | [], k, v => [(k, v)]
  | (k', v') :: rest, k, v =>
    if k' = k then (k, v) :: rest else (k', v') :: updateAssoc rest k v

/-- Array.prototype.slice(-n): the last n elements (the whole list when shorter). -/
def jsSliceLast (l : List TaskExecutionResult) (n : Nat) : List TaskExecutionResult :=
  l.drop (l.length - n)

/-- Result of one executeTask call: the new scheduler state, the thrown error when the
call threw before producing a result (unknown task id), otherwise the returned
TaskExecutionResult, plus the observable effects. -/
structure ExecReturn where
  state : SchedulerState
  thrownMsg : Option String
  result : Option TaskExecutionResult
  effects : Effects
  deriving DecidableEq

/-- TaskScheduler.executeTask (task-scheduler.ts): throws on an unknown id before any
state is touched; otherwise runs the try/catch described by runTry and applyOutcome,
appends the result to the execution history, and trims the history to its last 500
entries once its length exceeds 1000. -/
def executeTask (st : SchedulerState) (taskId : String) (now : Int) (env : RunEnv) :
    ExecReturn :=
  match st.tasks.lookup taskId with
  | none =>
    { state := st, thrownMsg := some ("Task not found: " ++ taskId), result := none,
      effects := noEffects }
  | some task =>
    let out := applyOutcome taskId now task (runTry env)
    let history0 := st.executionHistory ++ [out.2.1]
    let history1 := if 1000 < history0.length then jsSliceLast history0 500 else history0
    { state :=
        { st with tasks := updateAssoc st.tasks taskId out.1, executionHistory := history1 },
      thrownMsg := none, result := some out.2.1, effects := out.2.2 }

/-- The retry counter of the task stored under an id, for readable statements. -/
def taskRetryCount (st : SchedulerState) (id : String) : Option Nat :=
  (st.tasks.lookup id).map (fun t => t.retryCount)

/-- Looking up the key just written returns the written task. -/
lemma lookup_updateAssoc (l : List (String × ScheduledTask)) (k : String)
    (v : ScheduledTask) : (updateAssoc l k v).lookup k = some v := by
  induction l with
  | nil => simp [updateAssoc, List.lookup]
  | cons p rest ih =>
    obtain ⟨k', v'⟩ := p
    by_cases h : k' = k
    · subst h
      simp [updateAssoc, List.lookup]
    · have hb : (k == k') = false := beq_eq_false_iff_ne.2 (Ne.symm h)
      simp [updateAssoc, if_neg h, List.lookup, hb, ih]

/-- One failing executeTask call (collectData throws): the stored task gets its counter
incremented, and either a self-retry with linear-backoff delay is scheduled (counter
still under maxRetries) or the alert is sent. -/
lemma executeTask_collectThrows (st : SchedulerState) (id : String) (task : ScheduledTask)
    (now : Int) (msg : String) (h : st.tasks.lookup id = some task) :
    (executeTask st id now (RunEnv.collectThrows msg)).state.tasks =
        updateAssoc st.tasks id { task with retryCount := task.retryCount + 1 } ∧
      (executeTask st id now (RunEnv.collectThrows msg)).effects =
        (if task.retryCount + 1 < task.maxRetries then
          { alert := none,
            retryDelayMs := some (((task.retryCount + 1 : Nat) : Int) * 5 * 60 * 1000),
            submitCalled := false }
        else { alert := some (id, msg), retryDelayMs := none, submitCalled := false }) := by
  unfold executeTask
  simp [h, runTry, applyOutcome]

/-- One successful executeTask call with an empty, error-free batch: the stored task
gets its counter reset to 0 and lastRun set. -/
lemma executeTask_successEmpty (st : SchedulerState) (id : String) (task : ScheduledTask)
    (now : Int) (okv : ValidationResult) (h : st.tasks.lookup id = some task)
    (hokv : okv.errors = []) :
    (executeTask st id now (RunEnv.collected [] okv none)).state.tasks =
      updateAssoc st.tasks id { task with retryCount := 0, lastRun := some now } := by
  unfold executeTask
  simp [h, runTry, applyOutcome, hokv]

/-- C1: for a task with maxRetries = 3 and retryCount 0, each failed executeTask call
increments retryCount, so three consecutive failures move it 0 to 1 to 2 to 3; the first
two failures schedule a self-retry after retryCount times 5 minutes (300000 ms, then
600000 ms) with no alert, the third failure (retryCount reaching maxRetries) sends the
alert and schedules no self-retry, and a subsequent successful execution resets
retryCount to 0. -/
theorem retry_escalation_c1
    (st : SchedulerState) (id : String) (task : ScheduledTask)
    (t1 t2 t3 t4 : Int) (e1 e2 e3 : String) (okv : ValidationResult)
    (r1 r2 r3 r4 : ExecReturn)
    (h : st.tasks.lookup id = some task)
    (hmax : task.maxRetries = 3) (hrc : task.retryCount = 0)
    (hokv : okv.errors = [])
    (h1 : r1 = executeTask st id t1 (RunEnv.collectThrows e1))
    (h2 : r2 = executeTask r1.state id t2 (RunEnv.collectThrows e2))
    (h3 : r3 = executeTask r2.state id t3 (RunEnv.collectThrows e3))
    (h4 : r4 = executeTask r3.state id t4 (RunEnv.collected [] okv none)) :
    (taskRetryCount r1.state id = some 1 ∧
      r1.effects.retryDelayMs = some (1 * (5 * 60 * 1000)) ∧ r1.effects.alert = none) ∧
    (taskRetryCount r2.state id = some 2 ∧
      r2.effects.retryDelayMs = some (2 * (5 * 60 * 1000)) ∧ r2.effects.alert = none) ∧
    (taskRetryCount r3.state id = some 3 ∧
      r3.effects.retryDelayMs = none ∧ r3.effects.alert = some (id, e3)) ∧
    taskRetryCount r4.state id = some 0 := by
  subst h1 h2 h3 h4
  obtain ⟨ht1, he1⟩ := executeTask_collectThrows st id task t1 e1 h
  have l1 : (executeTask st id t1 (RunEnv.collectThrows e1)).state.tasks.lookup id =
      some { task with retryCount := task.retryCount + 1 } := by
    rw [ht1]; exact lookup_updateAssoc _ _ _
  obtain ⟨ht2, he2⟩ := executeTask_collectThrows _ id _ t2 e2 l1
  have l2 : (executeTask (executeTask st id t1 (RunEnv.collectThrows e1)).state id t2
      (RunEnv.collectThrows e2)).state.tasks.lookup id =
      some { task with retryCount := task.retryCount + 1 + 1 } := by
    rw [ht2]; exact lookup_updateAssoc _ _ _
  obtain ⟨ht3, he3⟩ := executeTask_collectThrows _ id _ t3 e3 l2
  have l3 : (executeTask (executeTask (executeTask st id t1 (RunEnv.collectThrows e1)).state
      id t2 (RunEnv.collectThrows e2)).state id t3
      (RunEnv.collectThrows e3)).state.tasks.lookup id =
      some { task with retryCount := task.retryCount + 1 + 1 + 1 } := by
    rw [ht3]; exact lookup_updateAssoc _ _ _
  have ht4 := executeTask_successEmpty _ id _ t4 okv l3 hokv
  have l4 : (executeTask (executeTask (executeTask (executeTask st id t1
      (RunEnv.collectThrows e1)).state id t2 (RunEnv.collectThrows e2)).state id t3
      (RunEnv.collectThrows e3)).state id t4
      (RunEnv.collected [] okv none)).state.tasks.lookup id =
      some { { task with retryCount := task.retryCount + 1 + 1 + 1 } with
        retryCount := 0, lastRun := some t4 } := by
    rw [ht4]; exact lookup_updateAssoc _ _ _
  refine ⟨⟨?_, ?_, ?_⟩, ⟨?_, ?_, ?_⟩, ⟨?_, ?_, ?_⟩, ?_⟩
  · unfold taskRetryCount; rw [l1]; simp [hrc]
  · rw [he1, if_pos (by omega)]; simp [hrc]
  · rw [he1, if_pos (by omega)]
  · unfold taskRetryCount; rw [l2]; simp [hrc]
  · rw [he2, if_pos (by simp [hrc, hmax])]; simp [hrc]
  · rw [he2, if_pos (by simp [hrc, hmax])]
  · unfold taskRetryCount; rw [l3]; simp [hrc]
  · rw [he3, if_neg (by simp [hrc, hmax])]
  · rw [he3, if_neg (by simp [hrc, hmax])]
  · unfold taskRetryCount; rw [l4]; simp

/-- The CCA scheduled task as initializeAdapters creates it (maxRetries 3, counter 0). -/
def c1Task : ScheduledTask :=
  { id := "cca-daily", schedule := "0 23 * * 1-5", lastRun := none, nextRun := none,
    enabled := true, retryCount := 0, maxRetries := 3 }

/-- A one-task scheduler state holding the CCA task. -/
def c1State : SchedulerState :=
  { tasks := [("cca-daily", c1Task)], executionHistory := [], isRunning := true }

/-- First failing call of the concrete retry chain. -/
def c1Run1 : ExecReturn := executeTask c1State "cca-daily" 0 (RunEnv.collectThrows "network error")

/-- Second failing call of the concrete retry chain. -/
def c1Run2 : ExecReturn := executeTask c1Run1.state "cca-daily" 0 (RunEnv.collectThrows "network error")

/-- Third failing call of the concrete retry chain. -/
def c1Run3 : ExecReturn := executeTask c1Run2.state "cca-daily" 0 (RunEnv.collectThrows "network error")

/-- Subsequent successful call of the concrete retry chain. -/
def c1Run4 : ExecReturn := executeTask c1Run3.state "cca-daily" 0 (RunEnv.collected [] (validateData []) none)

/-- Witness for retry_escalation_c1 on a concrete one-task scheduler. -/
theorem retry_escalation_c1_witness :
    (taskRetryCount c1Run1.state "cca-daily" = some 1 ∧
      c1Run1.effects.retryDelayMs = some (1 * (5 * 60 * 1000)) ∧
      c1Run1.effects.alert = none) ∧
    (taskRetryCount c1Run2.state "cca-daily" = some 2 ∧
      c1Run2.effects.retryDelayMs = some (2 * (5 * 60 * 1000)) ∧
      c1Run2.effects.alert = none) ∧
    (taskRetryCount c1Run3.state "cca-daily" = some 3 ∧
      c1Run3.effects.retryDelayMs = none ∧
      c1Run3.effects.alert = some ("cca-daily", "network error")) ∧
    taskRetryCount c1Run4.state "cca-daily" = some 0 :=
  retry_escalation_c1 c1State "cca-daily" c1Task 0 0 0 0
    "network error" "network error" "network error" (validateData [])
    c1Run1 c1Run2 c1Run3 c1Run4
    (by decide) (by decide) (by decide) (by decide) rfl rfl rfl rfl

/-- C4: executeTask on an id absent from the task map throws the Task-not-found error
before touching anything: the returned state is the input state (history, retry
counters, lastRun and enabled flags all unchanged), no result is appended, and no retry
or alert effect occurs. -/
theorem unknown_task_c4 (st : SchedulerState) (id : String) (now : Int) (env : RunEnv)
    (h : st.tasks.lookup id = none) :
    executeTask st id now env =
      { state := st, thrownMsg := some ("Task not found: " ++ id), result := none,
        effects := noEffects } := by
  unfold executeTask
  simp [h]

/-- A scheduler with no tasks at all. -/
def emptySchedulerState : SchedulerState :=
  { tasks := [], executionHistory := [], isRunning := false }

/-- Witness for unknown_task_c4 on a concrete unknown id. -/
theorem unknown_task_c4_witness :
    executeTask emptySchedulerState "missing-task" 0 (RunEnv.collectThrows "x") =
      { state := emptySchedulerState,
        thrownMsg := some ("Task not found: " ++ "missing-task"), result := none,
        effects := noEffects } :=
  unknown_task_c4 emptySchedulerState "missing-task" 0 (RunEnv.collectThrows "x") (by decide)

/-- C2 (amended): with the history holding exactly 1000 entries, the next executeTask
call appends its result (giving 1001 entries) and trims the history to its most recent
500 entries: entries 502 to 1001 of the appended list survive, entries 1 to 501 are
dropped (a halving to 500, not a cap at 1000). -/
theorem history_trim_c2 (st : SchedulerState) (id : String) (now : Int) (env : RunEnv)
    (task : ScheduledTask) (h : st.tasks.lookup id = some task)
    (hlen : st.executionHistory.length = 1000) :
    ∃ res, (executeTask st id now env).result = some res ∧
      (executeTask st id now env).state.executionHistory =
        (st.executionHistory ++ [res]).drop 501 ∧
      (executeTask st id now env).state.executionHistory.length = 500 := by
  have hlen1 : (st.executionHistory ++
      [(applyOutcome id now task (runTry env)).2.1]).length = 1001 := by
    rw [List.length_append, hlen]
    simp
  refine ⟨(applyOutcome id now task (runTry env)).2.1, ?_, ?_, ?_⟩
  · unfold executeTask
    simp [h]
  · unfold executeTask
    simp only [h]
    rw [if_pos (by rw [hlen1]; norm_num)]
    unfold jsSliceLast
    rw [hlen1]
  · unfold executeTask
    simp only [h]
    rw [if_pos (by rw [hlen1]; norm_num)]
    unfold jsSliceLast
    rw [List.length_drop, hlen1]

/-- The i-th entry of a concrete 1000-entry execution history (distinguished by
timestamp). -/
def histEntry (i : Nat) : TaskExecutionResult :=
  { taskId := "cca-daily", success := true, recordCount := 0, errors := [],
    warnings := [], executionTime := 0, timestamp := (i : Int) }

/-- A scheduler whose history holds exactly 1000 entries (histEntry 0 up to
histEntry 999, i.e. 1-based entries 1 to 1000). -/
def c2State : SchedulerState :=
  { tasks := [("cca-daily", c1Task)], executionHistory := (List.range 1000).map histEntry,
    isRunning := true }

/-- The history after one more executeTask call against c2State. -/
def c2NewHistory : List TaskExecutionResult :=
  (executeTask c2State "cca-daily" 0 (RunEnv.collectThrows "boom")).state.executionHistory

set_option maxRecDepth 100000 in
/-- C2 counterexample: the claim says that after the 1001st result is appended, entries
501 to 1001 (1-based) survive and entries 1 to 500 are dropped. On this concrete input
the trimmed history indeed has 500 entries, but its first element is histEntry 501
(1-based entry number 502), and histEntry 500 (1-based entry number 501) — which the
claim says survives — has been dropped. -/
theorem history_trim_c2_counterexample :
    c2NewHistory.length = 500 ∧
    c2NewHistory.head? = some (histEntry 501) ∧
    histEntry 500 ∉ c2NewHistory := by
  refine ⟨by decide, by decide, by decide⟩

/-- Witness for history_trim_c2 on the concrete 1000-entry history. -/
theorem history_trim_c2_witness :
    ∃ res, (executeTask c2State "cca-daily" 0 (RunEnv.collectThrows "boom")).result = some res ∧
      (executeTask c2State "cca-daily" 0 (RunEnv.collectThrows "boom")).state.executionHistory =
        (c2State.executionHistory ++ [res]).drop 501 ∧
      (executeTask c2State "cca-daily" 0
        (RunEnv.collectThrows "boom")).state.executionHistory.length = 500 :=
  history_trim_c2 c2State "cca-daily" 0 (RunEnv.collectThrows "boom") c1Task
    (by decide) (by simp [c2State])

/-- An executeTask call whose validation result carries a hard error: the try block
throws before submitDataToAPI, so the submission is never invoked and the returned
execution result is a failure. -/
lemma executeTask_validation_error (st : SchedulerState) (id : String) (now : Int)
    (task : ScheduledTask) (records : List PriceRecord) (validation : ValidationResult)
    (submitError : Option String) (h : st.tasks.lookup id = some task)
    (hval : validation.isValid = false) (herr : validation.errors.isEmpty = false) :
    (executeTask st id now
        (RunEnv.collected records validation submitError)).effects.submitCalled = false ∧
      ∃ res, (executeTask st id now
          (RunEnv.collected records validation submitError)).result = some res ∧
        res.success = false := by
  have hrun : runTry (RunEnv.collected records validation submitError) =
      TryOut.caught ("Data validation failed: " ++ String.intercalate ", " validation.errors)
        validation.errors validation.warnings false := by
    unfold runTry
    simp [hval, herr]
  constructor
  · unfold executeTask
    simp only [h, hrun]
    simp only [applyOutcome]
    split_ifs <;> rfl
  · unfold executeTask
    simp only [h, hrun]
    exact ⟨_, rfl, rfl⟩

/-- The claim's example record: marketCode EU with currency USD, under the CCA adapter. -/
def euUsdRecord : PriceRecord :=
  { ccaSampleRecord with marketCode := "EU" }

/-- C3 (amended): whenever the CCA adapter's validateData reports at least one hard
error, executeTask treats the execution as a thrown failure and submitDataToAPI is never
called for that batch — either the whole validated batch is submitted or nothing is.
In particular a record with marketCode EU under the CCA adapter draws the hard error
"Invalid market code: EU" and isValid = false (a currency other than USD would likewise
draw "Invalid currency"; currency USD itself is the CCA adapter's canonical currency and
draws no error). -/
theorem validation_gate_c3 :
    (∀ (st : SchedulerState) (id : String) (now : Int) (task : ScheduledTask)
        (records : List PriceRecord) (submitError : Option String),
      st.tasks.lookup id = some task →
      (validateData records).errors ≠ [] →
      ((executeTask st id now
          (RunEnv.collected records (validateData records) submitError)).effects.submitCalled
            = false ∧
        ∃ res, (executeTask st id now
            (RunEnv.collected records (validateData records) submitError)).result = some res ∧
          res.success = false)) ∧
    (validateData [euUsdRecord]).isValid = false ∧
    "Invalid market code: EU" ∈ (validateData [euUsdRecord]).errors := by
  refine ⟨?_, by decide, by decide⟩
  intro st id now task records submitError h herr
  have hempty : (validateData records).errors.isEmpty = false := by
    rw [Bool.eq_false_iff]
    intro hh
    exact herr (List.isEmpty_iff.1 hh)
  exact executeTask_validation_error st id now task records (validateData records)
    submitError h hempty hempty

/-- C3 counterexample: the claim's example asserts that a record with currency USD under
the CCA adapter produces an Invalid-currency hard error with isValid false; but USD is
the CCA adapter's canonical currency, and a well-formed CCA record with currency USD
validates with no errors at all. -/
theorem validation_gate_c3_counterexample :
    ccaSampleRecord.currency = "USD" ∧ ccaSampleRecord.marketCode = "CCA" ∧
    (validateData [ccaSampleRecord]).isValid = true ∧
    (validateData [ccaSampleRecord]).errors = [] := by
  refine ⟨rfl, rfl, by decide, by decide⟩

/-- Witness for validation_gate_c3 on the concrete EU record batch. -/
theorem validation_gate_c3_witness :
    (executeTask c1State "cca-daily" 0
        (RunEnv.collected [euUsdRecord] (validateData [euUsdRecord]) none)).effects.submitCalled
          = false ∧
    ∃ res, (executeTask c1State "cca-daily" 0
        (RunEnv.collected [euUsdRecord] (validateData [euUsdRecord]) none)).result = some res ∧
      res.success = false :=
  validation_gate_c3.1 c1State "cca-daily" 0 c1Task [euUsdRecord] none (by decide) (by decide)

/-- Interface ParsedRow (apps/mcp/src/adapters/types.ts); optional fields as Option. -/
structure ParsedRow where
  market_code : String
  instrument_code : String
  date : String
  price : Rat
  price_type : String
  currency : String
  unit : String
  volume : Option Rat
  venue_name : Option String
  source_url : String
  notes : Option String
  deriving DecidableEq

/-- The key string built by checkDuplicates: market_code, instrument_code and date
joined with a dash (template literal in data-quality.ts). -/
def dupKeyOf (row : ParsedRow) : String :=
  row.market_code ++ "-" ++ row.instrument_code ++ "-" ++ row.date

/-- The loop of checkDuplicates: walk the rows with the seen-key Set, pushing one notice
per row whose key has occurred before, and adding every key afterwards. -/
def checkDuplicatesGo : List ParsedRow → Finset String → List String
  | [], _ => []
  | row :: rest, seen =>
    (if dupKeyOf row ∈ seen then ["Duplicate entry: " ++ dupKeyOf row] else []) ++
      checkDuplicatesGo rest (insert (dupKeyOf row) seen)

/-- checkDuplicates (data-quality.ts): reports one notice per row whose
(market_code)-(instrument_code)-(date) key string was already seen. -/
def checkDuplicates (rows : List ParsedRow) : List String :=
  checkDuplicatesGo rows ∅

/-- The notice count of the loop plus the number of distinct unseen keys equals the row
count. -/
lemma checkDuplicatesGo_length (rows : List ParsedRow) :
    ∀ seen : Finset String,
      (checkDuplicatesGo rows seen).length +
        ((rows.map dupKeyOf).toFinset \ seen).card = rows.length := by
  induction rows with
  | nil => intro seen; simp [checkDuplicatesGo]
  | cons row rest ih =>
    intro seen
    by_cases h : dupKeyOf row ∈ seen
    · have hseen : insert (dupKeyOf row) seen = seen := Finset.insert_eq_self.2 h
      have hsd : ((row :: rest).map dupKeyOf).toFinset \ seen =
          (rest.map dupKeyOf).toFinset \ seen := by
        simp only [List.map_cons, List.toFinset_cons]
        exact Finset.insert_sdiff_of_mem _ h
      have hgo : checkDuplicatesGo (row :: rest) seen =
          ("Duplicate entry: " ++ dupKeyOf row) :: checkDuplicatesGo rest seen := by
        simp [checkDuplicatesGo, if_pos h, hseen]
      rw [hgo, hsd, List.length_cons, List.length_cons]
      have := ih seen
      omega
    · have e1 : ((row :: rest).map dupKeyOf).toFinset \ seen =
          insert (dupKeyOf row) ((rest.map dupKeyOf).toFinset \ seen) := by
        simp only [List.map_cons, List.toFinset_cons]
        ext a
        by_cases hak : a = dupKeyOf row
        · subst hak; simp [h]
        · simp [hak]
      have e2 : (rest.map dupKeyOf).toFinset \ insert (dupKeyOf row) seen =
          ((rest.map dupKeyOf).toFinset \ seen).erase (dupKeyOf row) := by
        ext a
        simp only [Finset.mem_sdiff, Finset.mem_erase, Finset.mem_insert]
        tauto
      have e3 : insert (dupKeyOf row) ((rest.map dupKeyOf).toFinset \ seen) =
          insert (dupKeyOf row) (((rest.map dupKeyOf).toFinset \ seen).erase (dupKeyOf row)) := by
        ext a
        by_cases hak : a = dupKeyOf row
        · subst hak; simp
        · simp [hak]
      have hsd : (((row :: rest).map dupKeyOf).toFinset \ seen).card =
          ((rest.map dupKeyOf).toFinset \ insert (dupKeyOf row) seen).card + 1 := by
        rw [e1, e2, e3, Finset.card_insert_of_not_mem (Finset.not_mem_erase _ _)]
      have hgo : checkDuplicatesGo (row :: rest) seen =
          checkDuplicatesGo rest (insert (dupKeyOf row) seen) := by
        simp [checkDuplicatesGo, if_neg h]
      rw [hgo, hsd, List.length_cons]
      have := ih (insert (dupKeyOf row) seen)
      omega

/-- Two rows agreeing on the three key fields. -/
def sameTripleKey (r1 r2 : ParsedRow) : Prop :=
  r1.market_code = r2.market_code ∧ r1.instrument_code = r2.instrument_code ∧
    r1.date = r2.date

/-- C7: checkDuplicates reports exactly one duplicate notice per occurrence of a key
beyond its first occurrence: in general the notice count plus the number of distinct
keys equals the row count; two rows sharing the (market_code, instrument_code, date)
key yield exactly the one notice for the second occurrence, and three rows with
identical keys yield exactly two notices. -/
theorem duplicates_c7 :
    (∀ rows : List ParsedRow,
      (checkDuplicates rows).length + (rows.map dupKeyOf).toFinset.card = rows.length) ∧
    (∀ r1 r2 : ParsedRow, sameTripleKey r1 r2 →
      checkDuplicates [r1, r2] = ["Duplicate entry: " ++ dupKeyOf r2]) ∧
    (∀ r1 r2 r3 : ParsedRow, sameTripleKey r1 r2 → sameTripleKey r2 r3 →
      (checkDuplicates [r1, r2, r3]).length = 2) := by
  refine ⟨?_, ?_, ?_⟩
  · intro rows
    have := checkDuplicatesGo_length rows ∅
    simpa using this
  · intro r1 r2 hkey
    obtain ⟨ha, hb, hc⟩ := hkey
    have hk : dupKeyOf r1 = dupKeyOf r2 := by unfold dupKeyOf; rw [ha, hb, hc]
    simp [checkDuplicates, checkDuplicatesGo, hk]
  · intro r1 r2 r3 h12 h23
    obtain ⟨ha, hb, hc⟩ := h12
    obtain ⟨ha2, hb2, hc2⟩ := h23
    have hk : dupKeyOf r1 = dupKeyOf r2 := by unfold dupKeyOf; rw [ha, hb, hc]
    have hk2 : dupKeyOf r2 = dupKeyOf r3 := by unfold dupKeyOf; rw [ha2, hb2, hc2]
    simp [checkDuplicates, checkDuplicatesGo, hk, hk2]

/-- A concrete EU row. -/
def euRowA : ParsedRow :=
  { market_code := "EU", instrument_code := "EUA", date := "2024-01-02", price := 80,
    price_type := "close", currency := "EUR", unit := "tCO2e", volume := some 1000,
    venue_name := none, source_url := "https://example.org", notes := none }

/-- A second EU row sharing the key of euRowA (different price). -/
def euRowB : ParsedRow :=
  { euRowA with price := 81 }

/-- Witness for duplicates_c7 on a concrete pair of key-sharing rows. -/
theorem duplicates_c7_witness :
    checkDuplicates [euRowA, euRowB] = ["Duplicate entry: " ++ dupKeyOf euRowB] :=
  duplicates_c7.2.1 euRowA euRowB ⟨rfl, rfl, rfl⟩

/-- Models dateString.trim().replace removing every character other than digits, slash
and dash (carb-csv.ts normalizeDate); the trim only removes whitespace, which the
character filter removes as well. -/
def cleanDateChars (s : String) : List Char :=
  s.toList.filter (fun c => c.isDigit || c == '/' || c == '-')

/-- First normalizeDate regex: 4-digit year, then 1-2 digit month and day
(YYYY-MM-DD with dash or slash separators), as a (year, month, day) triple. -/
def tryFormatYMD (cs : List Char) : Option (Nat × Nat × Nat) :=
  match splitDateRuns cs with
  | some (r1, r2, r3) =>
    if r1.length = 4 ∧ 1 ≤ r2.length ∧ r2.length ≤ 2 ∧ 1 ≤ r3.length ∧ r3.length ≤ 2 then
      some (digitsVal r1, digitsVal r2, digitsVal r3)
    else none
  | none => none

/-- Second normalizeDate regex: MM/DD/YYYY with a 4-digit year at the end. -/
def tryFormatMDY (cs : List Char) : Option (Nat × Nat × Nat) :=
  match splitDateRuns cs with
  | some (r1, r2, r3) =>
    if 1 ≤ r1.length ∧ r1.length ≤ 2 ∧ 1 ≤ r2.length ∧ r2.length ≤ 2 ∧ r3.length = 4 then
      some (digitsVal r3, digitsVal r1, digitsVal r2)
    else none
  | none => none

/-- Third normalizeDate regex: MM/DD/YY with a 2-digit year, mapped below 50 to the
2000s and from 50 upward to the 1900s. -/
def tryFormatMDY2 (cs : List Char) : Option (Nat × Nat × Nat) :=
  match splitDateRuns cs with
  | some (r1, r2, r3) =>
    if 1 ≤ r1.length ∧ r1.length ≤ 2 ∧ 1 ≤ r2.length ∧ r2.length ≤ 2 ∧ r3.length = 2 then
      some ((if digitsVal r3 < 50 then 2000 + digitsVal r3 else 1900 + digitsVal r3),
        digitsVal r1, digitsVal r2)
    else none
  | none => none

/-- The validity test of normalizeDate: month 1-12, day 1-31, year at least 2000. -/
def validYMD (y m d : Nat) : Bool :=
  decide (1 ≤ m) && decide (m ≤ 12) && decide (1 ≤ d) && decide (d ≤ 31) && decide (2000 ≤ y)

/-- month.toString().padStart(2, '0'). -/
def pad2 (n : Nat) : String :=
  if n < 10 then String.mk ('0' :: decDigits n) else String.mk (decDigits n)

/-- The template literal output of normalizeDate: year, zero-padded month, zero-padded
day, dash-separated. -/
def formatYMD (y m d : Nat) : String :=
  natDecString y ++ "-" ++ pad2 m ++ "-" ++ pad2 d

/-- The format loop of normalizeDate: try each regex in order; on a shape match with
invalid components fall through to the remaining formats (they can never match, the
shapes being mutually exclusive, so this equals returning null). -/
def dateFormatLoop : List (List Char → Option (Nat × Nat × Nat)) → List Char → Option String
  | [], _ => none
  | f :: fs, cs =>
    match f cs with
    | some (y, m, d) =>
      if validYMD y m d then some (formatYMD y m d) else dateFormatLoop fs cs
    | none => dateFormatLoop fs cs

/-- CarbCSVAdapter.normalizeDate (carb-csv.ts). -/
def normalizeDate (s : String) : Option String :=
  dateFormatLoop [tryFormatYMD, tryFormatMDY, tryFormatMDY2] (cleanDateChars s)

/-- The 年/月/日 to dash normalization at the top of CEAAdapter.parseDateString:
replace 年 and 月 by a dash and drop 日. -/
def cjkNormalize (s : String) : String :=
  String.mk (s.toList.foldr (fun c acc =>
    if c = '年' ∨ c = '月' then '-' :: acc
    else if c = '日' then acc
    else c :: acc) [])

/-- The shape test of parseDateString: exactly four digits, dash, two digits, dash,
two digits. -/
def isIsoShapeTen (s : String) : Bool :=
  match s.toList with
  | [y1, y2, y3, y4, a, m1, m2, b, d1, d2] =>
    y1.isDigit && y2.isDigit && y3.isDigit && y4.isDigit && (a == '-') &&
      m1.isDigit && m2.isDigit && (b == '-') && d1.isDigit && d2.isDigit
  | _ => false

/-- Models the new Date(dateStr) fallback of parseDateString followed by
toISOString().split at the T (UTC assumed): parse a dash or slash separated
year-month-day and require a real calendar date. Engine date parsing accepts more
formats than modelled here; every claim below exercises only the regex fast path of
parseDateString, never this fallback. -/
def jsDateFallbackISO (s : String) : Option String :=
  match splitDateRuns s.toList with
  | some (r1, r2, r3) =>
    if r1.length = 4 ∧ 1 ≤ r2.length ∧ r2.length ≤ 2 ∧ 1 ≤ r3.length ∧ r3.length ≤ 2 then
      if 1 ≤ digitsVal r2 ∧ digitsVal r2 ≤ 12 ∧ 1 ≤ digitsVal r3 ∧
          digitsVal r3 ≤ daysInMonth (digitsVal r1) (digitsVal r2) then
        some (formatYMD (digitsVal r1) (digitsVal r2) (digitsVal r3))
      else none
    else none
  | none => none

/-- CEAAdapter.parseDateString (cea-cneeex.ts): after the CJK replacement, any string of
the exact 4-2-2 digit shape is returned as is, with no range validation; anything else
goes to the engine date parse of the original string. -/
def parseDateString (s : String) : Option String :=
  if isIsoShapeTen (cjkNormalize s) then some (cjkNormalize s)
  else jsDateFallbackISO s

/-- Digit characters printed by decDigits are digits. -/
lemma digitChar_isDigit : ∀ k, k < 10 → (Nat.digitChar k).isDigit = true := by decide

/-- A digit character contributes a value of at most 9. -/
lemma digit_val_le (c : Char) (h : c.isDigit = true) : c.toNat - '0'.toNat ≤ 9 := by
  simp only [Char.isDigit, ge_iff_le, Bool.and_eq_true, decide_eq_true_eq] at h
  obtain ⟨h1, h2⟩ := h
  have g2 : c.val.toNat ≤ 57 := UInt32.toNat_le_of_le (by norm_num) h2
  have g0 : '0'.val.toNat = 48 := rfl
  simp only [Char.toNat]
  omega

/-- The running parseInt fold stays below (acc + 1) times 10 to the digit count. -/
lemma digitsVal_foldl_lt (cs : List Char) (h : ∀ c ∈ cs, c.isDigit = true) :
    ∀ acc, cs.foldl (fun acc c => 10 * acc + (c.toNat - '0'.toNat)) acc <
      (acc + 1) * 10 ^ cs.length := by
  induction cs with
  | nil => intro acc; simp
  | cons c cs ih =>
    intro acc
    have hc : c.toNat - '0'.toNat ≤ 9 := digit_val_le c (h c (by simp))
    simp only [List.foldl_cons, List.length_cons]
    calc cs.foldl (fun acc c => 10 * acc + (c.toNat - '0'.toNat))
          (10 * acc + (c.toNat - '0'.toNat))
        < (10 * acc + (c.toNat - '0'.toNat) + 1) * 10 ^ cs.length :=
          ih (fun x hx => h x (by simp [hx])) _
      _ ≤ ((acc + 1) * 10) * 10 ^ cs.length := Nat.mul_le_mul_right _ (by omega)
      _ = (acc + 1) * 10 ^ (cs.length + 1) := by ring

/-- The value of an all-digit run is below 10 to its length. -/
lemma digitsVal_lt (cs : List Char) (h : ∀ c ∈ cs, c.isDigit = true) :
    digitsVal cs < 10 ^ cs.length := by
  have := digitsVal_foldl_lt cs h 0
  simpa [digitsVal] using this

/-- The three runs returned by splitDateRuns are all-digit. -/
lemma splitDateRuns_digits (cs r1 r2 r3 : List Char)
    (h : splitDateRuns cs = some (r1, r2, r3)) :
    (∀ c ∈ r1, c.isDigit = true) ∧ (∀ c ∈ r2, c.isDigit = true) ∧
      (∀ c ∈ r3, c.isDigit = true) := by
  unfold splitDateRuns at h
  simp only [List.span_eq_take_drop] at h
  cases hd1 : cs.dropWhile Char.isDigit with
  | nil => simp [hd1] at h
  | cons c1 rest1 =>
    simp only [hd1] at h
    split_ifs at h with hc1
    cases hd2 : rest1.dropWhile Char.isDigit with
    | nil => simp [hd2] at h
    | cons c2 rest2 =>
      simp only [hd2] at h
      split_ifs at h with hc2 hc3
      simp only [Option.some.injEq, Prod.mk.injEq] at h
      obtain ⟨e1, e2, e3⟩ := h
      subst e1; subst e2; subst e3
      exact ⟨fun c hc => List.mem_takeWhile_imp hc,
        fun c hc => List.mem_takeWhile_imp hc,
        fun c hc => List.mem_takeWhile_imp hc⟩

/-- The three normalizeDate regexes are mutually exclusive: a string matching one of
them matches neither of the other two. -/
lemma tryFormats_exclusive (cs : List Char) :
    (∀ y m d, tryFormatYMD cs = some (y, m, d) →
      tryFormatMDY cs = none ∧ tryFormatMDY2 cs = none) ∧
    (∀ y m d, tryFormatMDY cs = some (y, m, d) →
      tryFormatYMD cs = none ∧ tryFormatMDY2 cs = none) ∧
    (∀ y m d, tryFormatMDY2 cs = some (y, m, d) →
      tryFormatYMD cs = none ∧ tryFormatMDY cs = none) := by
  cases hs : splitDateRuns cs with
  | none =>
    unfold tryFormatYMD tryFormatMDY tryFormatMDY2
    rw [hs]
    simp
  | some t =>
    obtain ⟨r1, r2, r3⟩ := t
    unfold tryFormatYMD tryFormatMDY tryFormatMDY2
    simp only [hs]
    refine ⟨?_, ?_, ?_⟩
    · intro y m d h
      split_ifs at h with hc
      exact ⟨by rw [if_neg (by intro hcon; omega)],
        by rw [if_neg (by intro hcon; omega)]⟩
    · intro y m d h
      split_ifs at h with hc
      exact ⟨by rw [if_neg (by intro hcon; omega)],
        by rw [if_neg (by intro hcon; omega)]⟩
    · intro y m d h
      split_ifs at h with hc h50
      · exact ⟨by rw [if_neg (by intro hcon; omega)],
          by rw [if_neg (by intro hcon; omega)]⟩
      · exact ⟨by rw [if_neg (by intro hcon; omega)],
          by rw [if_neg (by intro hcon; omega)]⟩

/-- The year produced by any of the three regexes is at most 9999. -/
lemma tryFormats_y_le (cs : List Char) (y m d : Nat)
    (h : tryFormatYMD cs = some (y, m, d) ∨ tryFormatMDY cs = some (y, m, d) ∨
      tryFormatMDY2 cs = some (y, m, d)) : y ≤ 9999 := by
  cases hs : splitDateRuns cs with
  | none =>
    unfold tryFormatYMD tryFormatMDY tryFormatMDY2 at h
    simp [hs] at h
  | some t =>
    obtain ⟨r1, r2, r3⟩ := t
    obtain ⟨hd1, hd2, hd3⟩ := splitDateRuns_digits cs r1 r2 r3 hs
    unfold tryFormatYMD tryFormatMDY tryFormatMDY2 at h
    simp only [hs] at h
    have g1 := digitsVal_lt r1 hd1
    have g3 := digitsVal_lt r3 hd3
    rcases h with h | h | h
    · split_ifs at h with hc
      simp only [Option.some.injEq, Prod.mk.injEq] at h
      obtain ⟨hy, -, -⟩ := h
      rw [hc.1] at g1
      have g1a : digitsVal r1 < 10000 := by simpa using g1
      omega
    · split_ifs at h with hc
      simp only [Option.some.injEq, Prod.mk.injEq] at h
      obtain ⟨hy, -, -⟩ := h
      have hl3 : r3.length = 4 := by omega
      rw [hl3] at g3
      have g3a : digitsVal r3 < 10000 := by simpa using g3
      omega
    · split_ifs at h with hc h50
      · simp only [Option.some.injEq, Prod.mk.injEq] at h
        obtain ⟨hy, -, -⟩ := h
        have hl3 : r3.length = 2 := by omega
        rw [hl3] at g3
        have g3a : digitsVal r3 < 100 := by simpa using g3
        omega
      · simp only [Option.some.injEq, Prod.mk.injEq] at h
        obtain ⟨hy, -, -⟩ := h
        have hl3 : r3.length = 2 := by omega
        rw [hl3] at g3
        have g3a : digitsVal r3 < 100 := by simpa using g3
        omega

/-- The fuel argument of decDigitsAux is irrelevant once it exceeds the number. -/
lemma decDigitsAux_congr : ∀ f g n, n < f → n < g → decDigitsAux f n = decDigitsAux g n := by
  intro f
  induction f with
  | zero => intro g n hf; omega
  | succ f ih =>
    intro g n hf hg
    cases g with
    | zero => omega
    | succ g =>
      simp only [decDigitsAux]
      by_cases h10 : n < 10
      · simp [h10]
      · rw [if_neg h10, if_neg h10]
        have hlt : n / 10 < n := Nat.div_lt_self (by omega) (by norm_num)
        rw [ih g (n / 10) (by omega) (by omega)]

/-- Unfolding step of decDigits for numbers of two or more digits. -/
lemma decDigits_step (n : Nat) (h : 10 ≤ n) :
    decDigits n = decDigits (n / 10) ++ [Nat.digitChar (n % 10)] := by
  unfold decDigits
  have h1 : decDigitsAux (n + 1) n =
      if n < 10 then [Nat.digitChar n]
      else decDigitsAux n (n / 10) ++ [Nat.digitChar (n % 10)] := rfl
  rw [h1, if_neg (by omega)]
  have hlt : n / 10 < n := Nat.div_lt_self (by omega) (by norm_num)
  rw [decDigitsAux_congr n (n / 10 + 1) (n / 10) (by omega) (by omega)]

/-- decDigits of a one-digit number. -/
lemma decDigits_lt10 (n : Nat) (h : n < 10) : decDigits n = [Nat.digitChar n] := by
  unfold decDigits
  have h1 : decDigitsAux (n + 1) n =
      if n < 10 then [Nat.digitChar n]
      else decDigitsAux n (n / 10) ++ [Nat.digitChar (n % 10)] := rfl
  rw [h1, if_pos h]

/-- A four-digit number prints as exactly four digit characters. -/
lemma decDigits_four (y : Nat) (h1 : 1000 ≤ y) (h2 : y ≤ 9999) :
    decDigits y = [Nat.digitChar (y / 10 / 10 / 10), Nat.digitChar (y / 10 / 10 % 10),
      Nat.digitChar (y / 10 % 10), Nat.digitChar (y % 10)] := by
  have s1 := decDigits_step y (by omega)
  have s2 := decDigits_step (y / 10) (by omega)
  have s3 := decDigits_step (y / 10 / 10) (by omega)
  have s4 := decDigits_lt10 (y / 10 / 10 / 10) (by omega)
  rw [s1, s2, s3, s4]
  simp

/-- pad2 of a number between 1 and 99 prints as exactly two digit characters. -/
lemma pad2_two (m : Nat) (h1 : 1 ≤ m) (h2 : m ≤ 99) :
    ∃ c1 c2, (pad2 m).toList = [c1, c2] ∧ c1.isDigit = true ∧ c2.isDigit = true := by
  unfold pad2
  by_cases h10 : m < 10
  · rw [if_pos h10]
    refine ⟨'0', Nat.digitChar m, ?_, by decide, digitChar_isDigit m (by omega)⟩
    rw [decDigits_lt10 m h10]
    rfl
  · rw [if_neg h10]
    have s1 := decDigits_step m (by omega)
    have s2 := decDigits_lt10 (m / 10) (by omega)
    refine ⟨Nat.digitChar (m / 10), Nat.digitChar (m % 10), ?_,
      digitChar_isDigit _ (by omega), digitChar_isDigit _ (by omega)⟩
    show (String.mk (decDigits m)).toList = _
    rw [s1, s2]
    rfl

/-- The normalizeDate output for in-range components has the canonical
four-two-two digit shape. -/
lemma formatYMD_shape (y m d : Nat) (hy1 : 2000 ≤ y) (hy2 : y ≤ 9999)
    (hm1 : 1 ≤ m) (hm2 : m ≤ 12) (hd1 : 1 ≤ d) (hd2 : d ≤ 31) :
    isIsoShapeTen (formatYMD y m d) = true := by
  obtain ⟨m1, m2, hm, hm1d, hm2d⟩ := pad2_two m hm1 (by omega)
  obtain ⟨e1, e2, hd, hd1d, hd2d⟩ := pad2_two d hd1 (by omega)
  have hy := decDigits_four y (by omega) hy2
  have htl : (formatYMD y m d).toList =
      decDigits y ++ '-' :: ((pad2 m).toList ++ '-' :: (pad2 d).toList) := by
    simp [formatYMD, natDecString]
  unfold isIsoShapeTen
  rw [htl, hy, hm, hd]
  simp [digitChar_isDigit _ (show y / 10 / 10 / 10 < 10 by omega),
    digitChar_isDigit _ (show y / 10 / 10 % 10 < 10 by omega),
    digitChar_isDigit _ (show y / 10 % 10 < 10 by omega),
    digitChar_isDigit _ (show y % 10 < 10 by omega), hm1d, hm2d, hd1d, hd2d]

/-- C8 (amended): for CarbCSVAdapter.normalizeDate, every accepted-format input (any of
the three regexes, the 2-digit year mapped below 50 to the 2000s, from 50 up to the
1900s) with month 1-12, day 1-31 and year at least 2000 yields exactly the parsed
components zero-padded in YYYY-MM-DD shape, and any matched input whose components are
out of range (month 13, day 32, or a 2-digit year resolving to 1999) is rejected with
null rather than clamped. CEAAdapter.parseDateString, however, does not validate ranges
on its regex fast path (see the counterexample). -/
theorem date_normalization_c8 :
    (∀ (s : String) (y m d : Nat),
      (tryFormatYMD (cleanDateChars s) = some (y, m, d) ∨
        tryFormatMDY (cleanDateChars s) = some (y, m, d) ∨
        tryFormatMDY2 (cleanDateChars s) = some (y, m, d)) →
      ((validYMD y m d = true →
          normalizeDate s = some (formatYMD y m d) ∧
            isIsoShapeTen (formatYMD y m d) = true) ∧
        (validYMD y m d = false → normalizeDate s = none))) ∧
    normalizeDate "2024-13-05" = none ∧
    normalizeDate "01/32/2024" = none ∧
    normalizeDate "12/31/99" = none := by
  refine ⟨?_, by decide, by decide, by decide⟩
  intro s y m d hmatch
  obtain ⟨ex1, ex2, ex3⟩ := tryFormats_exclusive (cleanDateChars s)
  constructor
  · intro hvalid
    have hy9999 := tryFormats_y_le (cleanDateChars s) y m d hmatch
    constructor
    · rcases hmatch with h | h | h
      · simp [normalizeDate, dateFormatLoop, h, hvalid]
      · obtain ⟨hn1, -⟩ := ex2 y m d h
        simp [normalizeDate, dateFormatLoop, hn1, h, hvalid]
      · obtain ⟨hn1, hn2⟩ := ex3 y m d h
        simp [normalizeDate, dateFormatLoop, hn1, hn2, h, hvalid]
    · simp only [validYMD, Bool.and_eq_true, decide_eq_true_eq] at hvalid
      obtain ⟨⟨⟨⟨h1, h2⟩, h3⟩, h4⟩, h5⟩ := hvalid
      exact formatYMD_shape y m d h5 hy9999 h1 h2 h3 h4
  · intro hinvalid
    rcases hmatch with h | h | h
    · obtain ⟨hn2, hn3⟩ := ex1 y m d h
      simp [normalizeDate, dateFormatLoop, h, hinvalid, hn2, hn3]
    · obtain ⟨hn1, hn3⟩ := ex2 y m d h
      simp [normalizeDate, dateFormatLoop, hn1, h, hinvalid, hn3]
    · obtain ⟨hn1, hn2⟩ := ex3 y m d h
      simp [normalizeDate, dateFormatLoop, hn1, hn2, h, hinvalid]

/-- C8 counterexample: the claim says any input with month outside 1-12 or day outside
1-31 is rejected by returning null; but CEAAdapter.parseDateString returns the
shape-matching string 2024-13-45 (month 13, day 45) unchanged instead of null. -/
theorem date_normalization_c8_counterexample :
    parseDateString "2024-13-45" = some "2024-13-45" ∧
    ¬ parseDateString "2024-13-45" = none := by
  refine ⟨by decide, by decide⟩

/-- Witness for date_normalization_c8 on the 2-digit-year input 1/5/24. -/
theorem date_normalization_c8_witness :
    tryFormatMDY2 (cleanDateChars "1/5/24") = some (2024, 1, 5) ∧
    validYMD 2024 1 5 = true ∧
    normalizeDate "1/5/24" = some (formatYMD 2024 1 5) ∧
    isIsoShapeTen (formatYMD 2024 1 5) = true :=
  ⟨by decide, by decide,
    ((date_normalization_c8.1 "1/5/24" 2024 1 5 (Or.inr (Or.inr (by decide)))).1
      (by decide)).1,
    ((date_normalization_c8.1 "1/5/24" 2024 1 5 (Or.inr (Or.inr (by decide)))).1
      (by decide)).2⟩

/-- Array.prototype.join with a separator. -/
def jsJoin (sep : String) : List String → String
  | [] => ""
  | [x] => x
  | x :: xs => x ++ sep ++ jsJoin sep xs

/-- The CSV header columns of convertToCSVFormat, in source order. -/
def csvHeaders : List String :=
  ["market_code", "instrument_code", "date", "price", "price_type", "currency", "unit",
    "volume", "source_url", "notes"]

/-- The row array built per record by convertToCSVFormat: the record fields with the
hardcoded close price type and tCO2e unit, the optional volume and sourceUrl printed as
empty when absent, and the notes embedding the collector name. -/
def recordCSVFields (r : PriceRecord) : List String :=
  [r.marketCode, r.instrumentCode, r.date, jsNumToString r.price, "close", r.currency,
    "tCO2e",
    (match r.volume with
      | some v => jsNumToString v
      | none => ""),
    r.sourceUrl, "MCP采集: " ++ r.collectedBy]

/-- TaskScheduler.convertToCSVFormat (task-scheduler.ts): empty string for an empty
batch; otherwise the header row and one row per record, every field double-quoted,
fields comma-joined and rows newline-joined. -/
def convertToCSVFormat (records : List PriceRecord) : String :=
  if records = [] then ""
  else
    jsJoin "\n" ((csvHeaders :: records.map recordCSVFields).map
      (fun row => jsJoin "," (row.map (fun f => "\"" ++ f ++ "\""))))

/-- Written from the specification text: the header line with exactly the columns
market_code, instrument_code, date, price, price_type, currency, unit, volume,
source_url, notes in that order, each double-quoted. -/
def specCSVHeaderLine : String :=
  jsJoin "," (["market_code", "instrument_code", "date", "price", "price_type",
    "currency", "unit", "volume", "source_url", "notes"].map (fun c => "\"" ++ c ++ "\""))

/-- Written from the specification text: one row per record in which every field is
double-quoted, price_type is the constant close, unit is the constant tCO2e, and notes
is the string MCP采集-colon-space followed by the collectedBy value. -/
def specCSVRecordLine (r : PriceRecord) : String :=
  jsJoin "," ([r.marketCode, r.instrumentCode, r.date, jsNumToString r.price, "close",
    r.currency, "tCO2e",
    (match r.volume with
      | some v => jsNumToString v
      | none => ""),
    r.sourceUrl, "MCP采集: " ++ r.collectedBy].map (fun f => "\"" ++ f ++ "\""))

/-- Written from the specification text: header line followed by one line per record. -/
def specCSVFormat (records : List PriceRecord) : String :=
  jsJoin "\n" (specCSVHeaderLine :: records.map specCSVRecordLine)

/-- C9: on every non-empty record list, convertToCSVFormat produces exactly the
spec-described CSV: the fixed ten-column double-quoted header, then one row per record
with every field double-quoted, price_type hardcoded to close, unit hardcoded to tCO2e,
and notes embedding the collector as MCP采集-colon-space plus collectedBy. -/
theorem csv_format_c9 (records : List PriceRecord) (h : records ≠ []) :
    convertToCSVFormat records = specCSVFormat records := by
  unfold convertToCSVFormat specCSVFormat
  rw [if_neg h, List.map_cons, List.map_map]
  rfl

set_option maxRecDepth 4000 in
/-- Witness for csv_format_c9 on a concrete one-record batch, with the produced CSV
text spelled out. -/
theorem csv_format_c9_witness :
    ([ccaSampleRecord] : List PriceRecord) ≠ [] ∧
    convertToCSVFormat [ccaSampleRecord] = specCSVFormat [ccaSampleRecord] ∧
    convertToCSVFormat [ccaSampleRecord] =
      "\"market_code\",\"instrument_code\",\"date\",\"price\",\"price_type\",\"currency\",\"unit\",\"volume\",\"source_url\",\"notes\"\n\"CCA\",\"CCA\",\"2024-01-15\",\"50\",\"close\",\"USD\",\"tCO2e\",\"100\",\"https://ww2.arb.ca.gov\",\"MCP采集: MCP:CARB CSV\"" :=
  ⟨by decide, csv_format_c9 [ccaSampleRecord] (by decide), by decide⟩
